import Mathlib

/-!
Shallow embedding of the pagination, caching, cache-invalidation and
query-routing logic of the ecommerce API (product controller, products
route, Redis cache wrapper, database connection module), together with
proofs of the behavioural claims about them.

Conventions of the embedding:
* JavaScript runtime values that flow through the relevant code paths are
  modelled by the inductive type `JSVal` (integral numbers, strings, `NaN`,
  a generic object such as the Express request, `undefined`, `null`).
* The PostgreSQL store is modelled as a list of product rows that is
  already in `ORDER BY id DESC` order (theorems carry the corresponding
  sortedness hypothesis); a `SELECT ... WHERE ... LIMIT k` is `filter`
  followed by `take k`.
* The Redis client is modelled by `CacheState`: the availability flags,
  an association list for the keyspace, and failure flags that say
  whether the next `get`/`setex`/`del`/`keys` call throws.
* Fallible code returns `Except AppErr`; the externally observable store
  interactions are recorded as a `List Effect`.
-/

namespace ECom

/-- JavaScript values relevant to the embedded code paths.  `num` models an
integral JS number, `obj` models a generic non-callable object (in
particular the Express `req` object). -/
inductive JSVal where
  | num (n : Int)
  | str (s : String)
  | nan
  | obj
  | undef
  | null
deriving DecidableEq, Repr

/-- The whitespace characters skipped by JS `parseInt` (ASCII part). -/
def jsWhitespace (c : Char) : Bool :=
  c = ' ' || c = '\t' || c = '\n' || c = '\r' || c = '\x0b' || c = '\x0c'

/-- Value of a list of decimal digit characters. -/
def digitsToNat (ds : List Char) : Nat :=
  ds.foldl (fun a c => a * 10 + (c.toNat - '0'.toNat)) 0

/-- Parse the leading run of decimal digits; `none` when there is none
(JS `parseInt` returns `NaN` in that case). -/
def parseDigits (cs : List Char) : Option Nat :=
  let ds := cs.takeWhile Char.isDigit
  if ds.isEmpty then none else some (digitsToNat ds)

/-- JS `parseInt(s, 10)`: skip leading whitespace, optional sign, then the
longest digit prefix; `none` models `NaN`. -/
def parseIntStr (s : String) : Option Int :=
  let cs := s.data.dropWhile jsWhitespace
  match cs with
  | '-' :: rest => (parseDigits rest).map (fun n => -(n : Int))
  | '+' :: rest => (parseDigits rest).map (fun n => (n : Int))
  | _ => (parseDigits cs).map (fun n => (n : Int))

/-- Template-literal stringification of a `JSVal`. -/
def jsToString : JSVal → String
  | .num n => toString n
  | .str s => s
  | .nan => "NaN"
  | .obj => "[object Object]"
  | .undef => "undefined"
  | .null => "null"

/-- JS `parseInt(v, 10)` on a runtime value: the value is coerced to a
string first.  For an integral number the round trip gives the number
back; for `NaN`, objects, `undefined` and `null` the coerced strings
("NaN", "[object Object]", "undefined", "null") have no digit prefix. -/
def parseIntJS : JSVal → Option Int
  | .num n => some n
  | .str s => parseIntStr s
  | .nan => none
  | .obj => none
  | .undef => none
  | .null => none

/-- JS truthiness of the modelled values. -/
def truthy : JSVal → Bool
  | .num n => decide (n ≠ 0)
  | .str s => decide (s ≠ "")
  | .nan => false
  | .obj => true
  | .undef => false
  | .null => false

/-- The test `v !== undefined && v !== null && v !== ''` used by the cursor
validation. -/
def isProvided : JSVal → Bool
  | .undef => false
  | .null => false
  | .str s => decide (s ≠ "")
  | _ => true

/-- JS `v + 1` for the modelled values (`limit + 1` in the controller):
numbers add, strings and objects concatenate, `undefined` gives `NaN`,
`null` coerces to `0`. -/
def jsAdd1 : JSVal → JSVal
  | .num n => .num (n + 1)
  | .str s => .str (s ++ "1")
  | .nan => .nan
  | .obj => .str ("[object Object]" ++ "1")
  | .undef => .nan
  | .null => .num 1

/-- JS `a || b`. -/
def jsOr (a b : JSVal) : JSVal := if truthy a then a else b

/-- A product row; only the columns the embedded logic inspects. -/
structure Product where
  id : Int
  categoryId : Int
deriving DecidableEq, Repr

/-- The value computed by `getAllProductsPaginated`'s fetch function. -/
structure PageResult where
  products : List Product
  nextCursor : Option Int
  hasMore : Bool
deriving DecidableEq, Repr

/-- The application errors surfaced by the embedded code paths.
`invalidCursor` is the 400 `INVALID_CURSOR` error, `invalidCategoryId`
the 400 `INVALID_CATEGORY_ID` error, and `dbError` stands for a database
error wrapped by `handleDatabaseError` (a 500). -/
inductive AppErr where
  | invalidCursor
  | invalidCategoryId
  | dbError
deriving DecidableEq, Repr

/-- Externally observable store interactions. -/
inductive Effect where
  | cacheGet (key : String)
  | cacheSet (key : String)
  | dbQuery (categoryFilter : Option Int) (cursorFilter : Option Int) (limitParam : JSVal)
deriving DecidableEq, Repr

/-- State of the Redis client: availability (the `isRedisEnabled` flag and
whether `redisClient` is non-null), the stored entries `(key, value, ttl)`,
and flags saying whether the next `get`/`setex`/`del`/`keys` call throws. -/
structure CacheState where
  enabled : Bool
  hasClient : Bool
  store : List (String × String × Nat)
  getFails : Bool
  setFails : Bool
  delFails : Bool
  keysFails : Bool
deriving DecidableEq, Repr

/-- Redis `GET key` (over the modelled keyspace). -/
def lookupStore (store : List (String × String × Nat)) (key : String) : Option String :=
  (store.find? (fun e => e.1 == key)).map (fun e => e.2.1)

/-- Redis `SETEX key ttl val`: overwrites any existing entry for `key`. -/
def insertStore (store : List (String × String × Nat)) (key val : String) (ttl : Nat) :
    List (String × String × Nat) :=
  (key, val, ttl) :: store.filter (fun e => e.1 != key)

/-- The cache-miss path of `getCached` (the code after the `if (cached)`
test fails): call `fetchFn`, store the result under `key` with the given
TTL when it is non-null, and return it.  If `fetchFn` throws, or if
`setex` throws, the surrounding `catch` runs `return fetchFn()`, invoking
the fetch function a second time. -/
def getCachedMiss {V : Type} (isNullV : V → Bool) (encode : V → String)
    (st : CacheState) (key : String) (compute : Except AppErr V × List Effect) (ttl : Nat) :
    Except AppErr V × CacheState × Nat × List Effect :=
  match compute.1 with
  | .error e => (.error e, st, 2, Effect.cacheGet key :: (compute.2 ++ compute.2))
  | .ok d =>
    if isNullV d then
      (.ok d, st, 1, Effect.cacheGet key :: compute.2)
    else if st.setFails then
      (.ok d, st, 2, Effect.cacheGet key :: (compute.2 ++ [Effect.cacheSet key] ++ compute.2))
    else
      (.ok d, { st with store := insertStore st.store key (encode d) ttl }, 1,
        Effect.cacheGet key :: (compute.2 ++ [Effect.cacheSet key]))

/-- The `getCached(key, fetchFn, ttl)` wrapper from `utils/redisClient`.
`compute` is the deterministic behaviour of `fetchFn` (its result and the
store interactions one invocation performs).  The returned quadruple is
(result, new cache state, number of `fetchFn` invocations, effects).
When the client is disabled or absent the cache is bypassed entirely; any
error thrown by `get`, `JSON.parse` or `setex` is caught and answered by
`return fetchFn()`. -/
def getCached {V : Type} (isNullV : V → Bool) (encode : V → String) (decode : String → Option V)
    (st : CacheState) (key : String) (compute : Except AppErr V × List Effect) (ttl : Nat) :
    Except AppErr V × CacheState × Nat × List Effect :=
  if st.enabled && st.hasClient then
    if st.getFails then
      (compute.1, st, 1, Effect.cacheGet key :: compute.2)
    else
      match lookupStore st.store key with
      | some c =>
        if c ≠ "" then
          match decode c with
          | some v => (.ok v, st, 0, [Effect.cacheGet key])
          | none => (compute.1, st, 1, Effect.cacheGet key :: compute.2)
        else getCachedMiss isNullV encode st key compute ttl
      | none => getCachedMiss isNullV encode st key compute ttl
  else
    (compute.1, st, 1, compute.2)

/-- Row predicate of the product list query: the optional
`category_id = $k` filter conjoined with the optional keyset bound
`id < cursor`. -/
def rowPred (categoryFilter cursorFilter : Option Int) (p : Product) : Bool :=
  (match categoryFilter with
   | some cid => decide (p.categoryId = cid)
   | none => true)
  &&
  (match cursorFilter with
   | some c => decide (p.id < c)
   | none => true)

/-- The `SELECT ... ORDER BY p.id DESC LIMIT k` query over a table that is
given in descending-id order. -/
def queryRows (db : List Product) (categoryFilter cursorFilter : Option Int) (k : Nat) :
    List Product :=
  (db.filter (rowPred categoryFilter cursorFilter)).take k

/-- The page assembly in `getAllProductsPaginated`:
`hasMore = rows.length > limit`, `products = hasMore ? rows.slice(0, -1) :
rows`, `nextCursor = hasMore ? products[products.length - 1].id : null`.
(An empty `products` under `hasMore`, which in JS would fault on the
index `-1` access, can only arise for `limit < 1` and is modelled as
`none`.) -/
def pageFromRows (rows : List Product) (limit : Int) : PageResult :=
  let hasMore : Bool := decide ((rows.length : Int) > limit)
  let products := if hasMore then rows.dropLast else rows
  { products := products
    nextCursor := if hasMore then (products.getLast?).map Product.id else none
    hasMore := hasMore }

/-- The cursor value placed into the query parameters by the fetch
function.  At this point in the control flow a truthy cursor is always an
integral number: a provided cursor was replaced by its validated integer
and every non-number the caller can reach here with is falsy. -/
def cursorParam (v : JSVal) : Option Int :=
  if truthy v then
    match v with
    | .num n => some n
    | _ => none
  else none

/-- Issuing the product list query: the SQL `LIMIT` parameter is
`limit + 1` computed with JS addition; a parameter that is not a
non-negative number is rejected by PostgreSQL, which surfaces as a
database error. -/
def runProductsQuery (db : List Product) (categoryFilter cursorFilter : Option Int)
    (limitV : JSVal) : Except AppErr PageResult × List Effect :=
  match jsAdd1 limitV with
  | .num m =>
    if m < 0 then
      (.error .dbError, [Effect.dbQuery categoryFilter cursorFilter (.num m)])
    else
      let rows := queryRows db categoryFilter cursorFilter m.toNat
      let l : Int := match limitV with
        | .num l => l
        | _ => 0
      (.ok (pageFromRows rows l), [Effect.dbQuery categoryFilter cursorFilter (.num m)])
  | other => (.error .dbError, [Effect.dbQuery categoryFilter cursorFilter other])

/-- The fetch function passed to `getCached` by `getAllProductsPaginated`
(lines 214-285 of the controller): validate `categoryId` when truthy,
then run the branch-selected query and assemble the page. -/
def productsCompute (db : List Product) (categoryIdV cursorV limitV : JSVal) :
    Except AppErr PageResult × List Effect :=
  if truthy categoryIdV then
    match parseIntJS categoryIdV with
    | none => (.error .invalidCategoryId, [])
    | some cid =>
      if cid < 1 then (.error .invalidCategoryId, [])
      else runProductsQuery db (some cid) (cursorParam cursorV) limitV
  else runProductsQuery db none (cursorParam cursorV) limitV

/-- The cache key template
`products:paginated:(categoryId or all):(cursor or start):limit`. -/
def productsCacheKey (categoryIdV cursorV limitV : JSVal) : String :=
  "products:paginated:" ++ (if truthy categoryIdV then jsToString categoryIdV else "all")
    ++ ":" ++ (if truthy cursorV then jsToString cursorV else "start")
    ++ ":" ++ jsToString limitV

/-- The page object is never `null`/`undefined`. -/
def pageIsNull : PageResult → Bool := fun _ => false

/-- The body of `getAllProductsPaginated` after cursor validation: wrap the
fetch function in `getCached` under the fingerprint key with TTL 300. -/
def getAllProductsPaginatedRun (encode : PageResult → String)
    (decode : String → Option PageResult) (db : List Product) (st : CacheState)
    (categoryIdV cursorV limitV : JSVal) :
    Except AppErr PageResult × CacheState × List Effect :=
  let r := getCached pageIsNull encode decode st (productsCacheKey categoryIdV cursorV limitV)
    (productsCompute db categoryIdV cursorV limitV) 300
  (r.1, r.2.1, r.2.2.2)

/-- The controller function `getAllProductsPaginated(categoryId, cursor,
limit = 20, req)`: a provided cursor whose `parseInt` is `NaN` or below 1
fails with `INVALID_CURSOR` before any cache or database access; otherwise
the validated integer replaces the cursor and the cached page is
returned.  `limit` defaults to 20 only when the passed value is
`undefined`. -/
def getAllProductsPaginated (encode : PageResult → String)
    (decode : String → Option PageResult) (db : List Product) (st : CacheState)
    (categoryId cursor limit req : JSVal) :
    Except AppErr PageResult × CacheState × List Effect :=
  let limitV := if limit = JSVal.undef then JSVal.num 20 else limit
  if isProvided cursor then
    match parseIntJS cursor with
    | none => (.error .invalidCursor, st, [])
    | some n =>
      if n < 1 then (.error .invalidCursor, st, [])
      else getAllProductsPaginatedRun encode decode db st categoryId (JSVal.num n) limitV
  else getAllProductsPaginatedRun encode decode db st categoryId cursor limitV

/-- The limit computation in the `GET /api/products` route handler:
`Math.min(Math.max(parseInt(req.query.limit || '10', 10), 1), 100)`.
`none` models `NaN` (both `Math.max` and `Math.min` propagate `NaN`). -/
def routeLimit (qlimit : JSVal) : Option Int :=
  (parseIntJS (jsOr qlimit (.str "10"))).map (fun n => min (max n 1) 100)

/-- The `GET /api/products` route handler body: it reads `req.query.cursor`
and the clamped limit, and calls `productController.getAllProductsPaginated
(cursor, limit, req)` — three arguments against four declared parameters,
so positionally `categoryId := cursor`, `cursor := limit`, `limit := req`
and `req := undefined`. -/
def routeGetProducts (encode : PageResult → String)
    (decode : String → Option PageResult) (db : List Product) (st : CacheState)
    (qcursor qlimit : JSVal) :
    Except AppErr PageResult × CacheState × List Effect :=
  let limitV := match routeLimit qlimit with
    | some n => JSVal.num n
    | none => JSVal.nan
  getAllProductsPaginated encode decode db st qcursor limitV JSVal.obj JSVal.undef

/-- Cursor values fed back between successive pagination calls. -/
def optCursorToJS : Option Int → JSVal
  | some n => .num n
  | none => .null

/-- Repeatedly calling `getAllProductsPaginated` (no category filter),
starting from the given cursor value and feeding each returned
`nextCursor` back in, until `hasMore` is false or the fuel runs out;
collects the concatenation of the returned pages. -/
def collectAll (encode : PageResult → String) (decode : String → Option PageResult)
    (db : List Product) (st : CacheState) (limit : Int) :
    Nat → JSVal → List Product
  | 0, _ => []
  | fuel + 1, curV =>
    match (getAllProductsPaginated encode decode db st JSVal.null curV
        (JSVal.num limit) JSVal.undef).1 with
    | .error _ => []
    | .ok page =>
      if page.hasMore then
        page.products ++
          collectAll encode decode db st limit fuel (optCursorToJS page.nextCursor)
      else page.products

/-- Iterated `getCached` calls against the same key, threading the cache
state; returns the (result, fetch-invocation count) of each call. -/
def getCachedRuns {V : Type} (isNullV : V → Bool) (encode : V → String)
    (decode : String → Option V) (key : String)
    (compute : Except AppErr V × List Effect) (ttl : Nat) :
    CacheState → Nat → List (Except AppErr V × Nat)
  | _, 0 => []
  | st, n + 1 =>
    let r := getCached isNullV encode decode st key compute ttl
    (r.1, r.2.2.1) :: getCachedRuns isNullV encode decode key compute ttl r.2.1 n

/-- All suffixes of a list, longest first. -/
def suffixes : List Char → List (List Char)
  | [] => [[]]
  | c :: cs => (c :: cs) :: suffixes cs

/-- Redis glob matching, restricted to literal characters and `*` (the
only forms the code uses): `*` consumes an arbitrary run of characters,
so it matches exactly when some suffix of the text matches the rest of
the pattern. -/
def globMatch : List Char → List Char → Bool
  | [], s => s.isEmpty
  | p :: ps, s =>
    if p = '*' then (suffixes s).any (fun t => globMatch ps t)
    else
      match s with
      | [] => false
      | c :: cs => p = c && globMatch ps cs

/-- The `invalidateCache(...keys)` helper: a no-op when the client is
unavailable; a thrown `del` is caught and swallowed; otherwise the listed
keys are deleted. -/
def invalidateCache (keys : List String) (st : CacheState) : CacheState :=
  if st.enabled && st.hasClient then
    if st.delFails then st
    else if keys.isEmpty then st
    else { st with store := st.store.filter (fun e => !(keys.contains e.1)) }
  else st

/-- The `invalidateCachePattern(pattern)` helper: a no-op when the client
is unavailable; a thrown `keys`/`del` is caught and swallowed; otherwise
every key matching the glob pattern is deleted. -/
def invalidateCachePattern (pattern : String) (st : CacheState) : CacheState :=
  if st.enabled && st.hasClient then
    if st.keysFails || st.delFails then st
    else { st with store := st.store.filter (fun e => !(globMatch pattern.data e.1.data)) }
  else st

/-- The cache invalidations performed by `createProduct` after commit:
`invalidateCachePattern('products:*')` then
`invalidateCache('category:' + categoryId)`. -/
def createProductInvalidation (categoryId : Int) (st : CacheState) : CacheState :=
  invalidateCache ["category:" ++ toString categoryId]
    (invalidateCachePattern "products:*" st)

/-- The cache invalidations performed by `updateProduct`:
`invalidateCache('product:' + id)`, `invalidateCachePattern('products:*')`,
`invalidateCache('category:' + categoryId)`. -/
def updateProductInvalidation (id categoryId : Int) (st : CacheState) : CacheState :=
  invalidateCache ["category:" ++ toString categoryId]
    (invalidateCachePattern "products:*"
      (invalidateCache ["product:" ++ toString id] st))

/-- The cache invalidations performed by `deleteProduct` (same sequence as
`updateProduct`). -/
def deleteProductInvalidation (id categoryId : Int) (st : CacheState) : CacheState :=
  invalidateCache ["category:" ++ toString categoryId]
    (invalidateCachePattern "products:*"
      (invalidateCache ["product:" ++ toString id] st))

/-- The keyword alternatives of the write-classifier regex in the
connection module. -/
def writeKeywords : List (List Char) :=
  ["INSERT".data, "UPDATE".data, "DELETE".data, "CREATE".data, "DROP".data,
   "ALTER".data, "TRUNCATE".data]

/-- Case-insensitive prefix test: `w` (given in upper case) against the
start of `cs`. -/
def isPrefixCI (w cs : List Char) : Bool :=
  decide ((cs.take w.length).map Char.toUpper = w)

/-- The classifier `/^\s*(INSERT|UPDATE|DELETE|CREATE|DROP|ALTER|TRUNCATE)/i
.test(sql)`: after optional leading whitespace the text starts,
case-insensitively, with one of the write keywords. -/
def isWriteQuery (sql : String) : Bool :=
  writeKeywords.any (fun w => isPrefixCI w (sql.data.dropWhile jsWhitespace))

/-- The two connection pools. -/
inductive PoolId where
  | primary
  | replica
deriving DecidableEq, Repr

/-- The module-level `readPool`: the replica pool when
`DB_READ_REPLICA_HOST` is configured, else the primary pool itself. -/
def readPoolId (replicaConfigured : Bool) : PoolId :=
  if replicaConfigured then .replica else .primary

/-- The pool selection in `query(sql, params, options)`:
`(isWrite || options.forcePrimary) ? pool : readPool`. -/
def queryTargetPool (replicaConfigured : Bool) (sql : String) (forcePrimary : Bool) : PoolId :=
  if isWriteQuery sql || forcePrimary then .primary else readPoolId replicaConfigured

/-- Spec-side reading of the classifier claim: the SQL text is some
whitespace, then a fragment whose upper-casing is one of the write
keywords, then anything. -/
def beginsWithWriteKeyword (sql : String) : Prop :=
  ∃ ws kw rest : List Char, sql.data = ws ++ kw ++ rest ∧
    (∀ c ∈ ws, jsWhitespace c = true) ∧ kw.map Char.toUpper ∈ writeKeywords

/-- Whether a `JSVal` denotes a positive integer (the spec-side notion the
cursor-validation claim quantifies over): an integral number at least 1,
or a string that in full is a decimal numeral of such a number. -/
def denotesPosInt : JSVal → Bool
  | .num n => decide (1 ≤ n)
  | .str s =>
    if s.data ≠ [] ∧ s.data.all Char.isDigit then decide (1 ≤ digitsToNat s.data)
    else false
  | _ => false

/-- String prefix test used to state the invalidation claim. -/
def strStartsWith (p s : String) : Bool :=
  decide (s.data.take p.data.length = p.data)

/-- Sortedness of the modelled table: strictly descending ids (the order
the `ORDER BY id DESC` queries return, with `id` a primary key). -/
def sortedDescIds (db : List Product) : Prop :=
  db.Pairwise (fun a b => b.id < a.id)

/-- The rows of the table still ahead of a given cursor position in the
descending keyset traversal (all rows when no cursor is set). -/
def remainingRows (db : List Product) (curF : Option Int) : List Product :=
  db.filter (rowPred none curF)

/-- The cursor values that arise in iterated pagination: no cursor
(`undefined` on the first call, `null` fed back from `nextCursor`), or a
positive integral number (a validated cursor or a returned id). -/
inductive CurOK : JSVal → Option Int → Prop where
  | undefC : CurOK .undef none
  | nullC : CurOK .null none
  | numC (n : Int) : 1 ≤ n → CurOK (.num n) (some n)

/-! ### Basic lemmas about the cache wrapper -/

lemma getCached_bypass {V : Type} (isNullV : V → Bool) (encode : V → String)
    (decode : String → Option V) (st : CacheState) (key : String)
    (compute : Except AppErr V × List Effect) (ttl : Nat)
    (h : (st.enabled && st.hasClient) = false) :
    getCached isNullV encode decode st key compute ttl = (compute.1, st, 1, compute.2) := by
  simp [getCached, h]

lemma getCached_getFails {V : Type} (isNullV : V → Bool) (encode : V → String)
    (decode : String → Option V) (st : CacheState) (key : String)
    (compute : Except AppErr V × List Effect) (ttl : Nat)
    (hen : st.enabled = true) (hcl : st.hasClient = true) (hgf : st.getFails = true) :
    getCached isNullV encode decode st key compute ttl
      = (compute.1, st, 1, Effect.cacheGet key :: compute.2) := by
  simp [getCached, hen, hcl, hgf]

/-- C6.  Whenever the cache store is marked unavailable (availability flag
false or no client), and likewise whenever a cache read throws, every call
`getCached(key, computeFn, ttl)` invokes `computeFn` (exactly once) and
returns its result without surfacing any cache error, for any number of
consecutive calls. -/
theorem c6_cache_outage_degradation {V : Type} (isNullV : V → Bool) (encode : V → String)
    (decode : String → Option V) (st : CacheState) (key : String)
    (compute : Except AppErr V × List Effect) (ttl : Nat) (n : Nat)
    (h : (st.enabled && st.hasClient) = false ∨ st.getFails = true) :
    getCachedRuns isNullV encode decode key compute ttl st n
      = List.replicate n (compute.1, 1) := by
  have hstep : getCached isNullV encode decode st key compute ttl
        = (compute.1, st, 1, (getCached isNullV encode decode st key compute ttl).2.2.2) := by
    rcases h with h | h
    · rw [getCached_bypass isNullV encode decode st key compute ttl h]
    · cases hd : (st.enabled && st.hasClient) with
      | false => rw [getCached_bypass isNullV encode decode st key compute ttl hd]
      | true =>
        simp only [Bool.and_eq_true] at hd
        rw [getCached_getFails isNullV encode decode st key compute ttl hd.1 hd.2 h]
  induction n with
  | zero => rfl
  | succ m ih =>
    rw [List.replicate_succ, ← ih]
    conv_lhs => rw [getCachedRuns, hstep]

/-- Witness for C6: three consecutive calls against an unavailable store
each invoke the fetch function once and return its value. -/
theorem c6_witness :
    getCachedRuns (fun (_ : Nat) => false) (fun n => toString n) (fun _ => none)
      "k" (Except.ok 5, []) 300 ⟨false, false, [], false, false, false, false⟩ 3
      = List.replicate 3 (Except.ok 5, 1) :=
  c6_cache_outage_degradation (fun (_ : Nat) => false) (fun n => toString n) (fun _ => none)
    ⟨false, false, [], false, false, false, false⟩ "k" (Except.ok 5, []) 300 3
    (Or.inl (by decide))

/-- C7 counterexample.  On a cache miss with a failing cache write, the
code calls the compute function twice, not exactly once: the thrown
`setex` lands in the catch-all handler, whose fallback is another
`fetchFn()` call.  The read still succeeds with the computed value. -/
theorem c7_counterexample :
    lookupStore (CacheState.store ⟨true, true, [], false, true, false, false⟩) "k" = none ∧
    (getCached (fun (_ : Nat) => false) (fun n => toString n) (fun _ => none)
      ⟨true, true, [], false, true, false, false⟩ "k" (Except.ok 7, []) 300).1
      = Except.ok 7 ∧
    (getCached (fun (_ : Nat) => false) (fun n => toString n) (fun _ => none)
      ⟨true, true, [], false, true, false, false⟩ "k" (Except.ok 7, []) 300).2.2.1 = 2 ∧
    ¬ (getCached (fun (_ : Nat) => false) (fun n => toString n) (fun _ => none)
      ⟨true, true, [], false, true, false, false⟩ "k" (Except.ok 7, []) 300).2.2.1 = 1 := by
  refine ⟨rfl, rfl, rfl, by decide⟩

/-- C7 (amended).  On a cache miss with a successfully computing fetch
function: the computed result is returned to the caller whether or not the
cache write succeeds; when the write succeeds the fetch function runs
exactly once and a non-null result is stored serialized under the key with
the given TTL (a null result is not stored); when the write throws, the
read still returns the computed result but the fetch function is invoked a
second time. -/
theorem c7_cache_miss_behavior {V : Type} (isNullV : V → Bool) (encode : V → String)
    (decode : String → Option V) (st : CacheState) (key : String)
    (compute : Except AppErr V × List Effect) (ttl : Nat) (d : V)
    (hen : st.enabled = true) (hcl : st.hasClient = true) (hgf : st.getFails = false)
    (hmiss : lookupStore st.store key = none) (hok : compute.1 = .ok d) :
    (getCached isNullV encode decode st key compute ttl).1 = .ok d ∧
    (st.setFails = false → isNullV d = false →
      (getCached isNullV encode decode st key compute ttl).2.2.1 = 1 ∧
      (getCached isNullV encode decode st key compute ttl).2.1
        = { st with store := insertStore st.store key (encode d) ttl }) ∧
    (isNullV d = true →
      (getCached isNullV encode decode st key compute ttl).2.2.1 = 1 ∧
      (getCached isNullV encode decode st key compute ttl).2.1 = st) ∧
    (st.setFails = true → isNullV d = false →
      (getCached isNullV encode decode st key compute ttl).2.2.1 = 2 ∧
      (getCached isNullV encode decode st key compute ttl).2.1 = st) := by
  have hrun : getCached isNullV encode decode st key compute ttl
      = getCachedMiss isNullV encode st key compute ttl := by
    simp [getCached, hen, hcl, hgf, hmiss]
  rw [hrun]
  unfold getCachedMiss
  rw [hok]
  refine ⟨?_, ?_, ?_, ?_⟩
  · cases hnull : isNullV d <;> cases hset : st.setFails <;> simp [hnull, hset]
  · intro hset hnull; simp [hnull, hset]
  · intro hnull; simp [hnull]
  · intro hset hnull; simp [hnull, hset]

/-- Witness for C7 (amended): a concrete miss with a working store invokes
the fetch function once, stores the serialized value, and returns it. -/
theorem c7_witness :
    (getCached (fun (_ : Nat) => false) (fun n => toString n) (fun _ => none)
      ⟨true, true, [], false, false, false, false⟩ "k" (Except.ok 7, []) 300).1
      = Except.ok 7 ∧
    (getCached (fun (_ : Nat) => false) (fun n => toString n) (fun _ => none)
      ⟨true, true, [], false, false, false, false⟩ "k" (Except.ok 7, []) 300).2.2.1 = 1 ∧
    (getCached (fun (_ : Nat) => false) (fun n => toString n) (fun _ => none)
      ⟨true, true, [], false, false, false, false⟩ "k" (Except.ok 7, []) 300).2.1
      = { (⟨true, true, [], false, false, false, false⟩ : CacheState) with
          store := insertStore [] "k" "7" 300 } := by
  have h := c7_cache_miss_behavior (fun (_ : Nat) => false) (fun n => toString n)
    (fun _ => none) ⟨true, true, [], false, false, false, false⟩ "k" (Except.ok 7, []) 300 7
    rfl rfl rfl rfl rfl
  exact ⟨h.1, (h.2.1 rfl rfl).1, (h.2.1 rfl rfl).2⟩

/-! ### Page assembly -/

lemma pageFromRows_big (rows : List Product) (limit : Int)
    (h : limit < (rows.length : Int)) :
    pageFromRows rows limit
      = ⟨rows.dropLast, (rows.dropLast.getLast?).map Product.id, true⟩ := by
  have hd : decide ((rows.length : Int) > limit) = true := by
    simp only [gt_iff_lt, decide_eq_true_eq]; exact h
  simp [pageFromRows, hd]

lemma pageFromRows_small (rows : List Product) (limit : Int)
    (h : (rows.length : Int) ≤ limit) :
    pageFromRows rows limit = ⟨rows, none, false⟩ := by
  have hd : decide ((rows.length : Int) > limit) = false := by
    simp only [gt_iff_lt, decide_eq_false_iff_not, not_lt]; exact h
  simp [pageFromRows, hd]

/-- C4.  When a page computation fetched at most `limit+1` rows: with
exactly `limit+1` rows, `hasMore` is true, the items are the first
`limit` rows, and `nextCursor` is the id of the `limit`-th returned row;
with at most `limit` rows, `hasMore` is false, `nextCursor` is null and
all rows are returned. -/
theorem c4_limit_plus_one_page (rows : List Product) (limit : Int) (hl : 1 ≤ limit) :
    ((rows.length : Int) = limit + 1 →
      (pageFromRows rows limit).hasMore = true ∧
      (pageFromRows rows limit).products = rows.take limit.toNat ∧
      (pageFromRows rows limit).nextCursor = rows[limit.toNat - 1]?.map Product.id) ∧
    ((rows.length : Int) ≤ limit →
      (pageFromRows rows limit).hasMore = false ∧
      (pageFromRows rows limit).products = rows ∧
      (pageFromRows rows limit).nextCursor = none) := by
  constructor
  · intro hlen
    have hlen' : rows.length = limit.toNat + 1 := by omega
    rw [pageFromRows_big rows limit (by omega)]
    have hdrop : rows.dropLast = rows.take limit.toNat := by
      rw [List.dropLast_eq_take, hlen', Nat.add_sub_cancel]
    refine ⟨rfl, hdrop, ?_⟩
    rw [hdrop, List.getLast?_eq_getElem?, List.length_take, hlen']
    have hmin : min limit.toNat (limit.toNat + 1) = limit.toNat := by omega
    rw [hmin, List.getElem?_take]
    have hlt : limit.toNat - 1 < limit.toNat := by omega
    simp [hlt]
  · intro hlen
    rw [pageFromRows_small rows limit hlen]
    exact ⟨rfl, rfl, rfl⟩

/-- Witness for C4: a three-row result with limit 2 keeps the first two
rows and exposes the second row's id as the cursor; a three-row result
with limit 3 is returned whole. -/
theorem c4_witness :
    (pageFromRows [⟨30, 1⟩, ⟨20, 1⟩, ⟨10, 2⟩] 2).hasMore = true ∧
    (pageFromRows [⟨30, 1⟩, ⟨20, 1⟩, ⟨10, 2⟩] 2).products = [⟨30, 1⟩, ⟨20, 1⟩] ∧
    (pageFromRows [⟨30, 1⟩, ⟨20, 1⟩, ⟨10, 2⟩] 2).nextCursor = some 20 ∧
    (pageFromRows [⟨30, 1⟩, ⟨20, 1⟩, ⟨10, 2⟩] 3).hasMore = false ∧
    (pageFromRows [⟨30, 1⟩, ⟨20, 1⟩, ⟨10, 2⟩] 3).nextCursor = none := by
  have h2 := (c4_limit_plus_one_page [⟨30, 1⟩, ⟨20, 1⟩, ⟨10, 2⟩] 2 (by decide)).1 (by decide)
  have h3 := (c4_limit_plus_one_page [⟨30, 1⟩, ⟨20, 1⟩, ⟨10, 2⟩] 3 (by decide)).2 (by decide)
  refine ⟨h2.1, ?_, ?_, h3.1, h3.2.2⟩
  · rw [h2.2.1]; rfl
  · rw [h2.2.2]; rfl

/-! ### Route-level limit clamping -/

/-- C9 counterexample.  A `limit` query parameter whose `parseInt` is
`NaN` (for example `limit=abc`) is not clamped into `[1, 100]`: the
effective limit is `NaN`. -/
theorem c9_counterexample :
    routeLimit (JSVal.str "abc") = none ∧
    ∀ m : Int, ¬ (routeLimit (JSVal.str "abc") = some m ∧ 1 ≤ m ∧ m ≤ 100) := by
  refine ⟨rfl, ?_⟩
  intro m hm
  rw [(rfl : routeLimit (JSVal.str "abc") = none)] at hm
  exact Option.noConfusion hm.1

/-- C9 (amended).  For every request whose `limit` parameter is absent,
empty, or parses under `parseInt` to an integer `n`, the effective limit
is clamped into `[1, 100]`: `0` is raised to `1`, values above `100` are
lowered to `100`, in-range values pass through, and the correction is
silent (no error is produced). -/
theorem c9_limit_clamped (qlimit : JSVal) (n : Int)
    (h : parseIntJS (jsOr qlimit (.str "10")) = some n) :
    ∃ m, routeLimit qlimit = some m ∧ 1 ≤ m ∧ m ≤ 100 ∧
      (n = 0 → m = 1) ∧ (100 < n → m = 100) ∧ (1 ≤ n → n ≤ 100 → m = n) := by
  refine ⟨min (max n 1) 100, ?_, ?_, ?_, ?_, ?_, ?_⟩
  · rw [routeLimit, h]; rfl
  · omega
  · omega
  · omega
  · omega
  · intro h1 h2; omega

/-- Witness for C9: `limit=0` is raised to an effective limit of 1 and
`limit=500` is lowered to 100. -/
theorem c9_witness :
    (∃ m, routeLimit (JSVal.str "0") = some m ∧ 1 ≤ m ∧ m ≤ 100 ∧
      ((0 : Int) = 0 → m = 1) ∧ ((100 : Int) < 0 → m = 100) ∧
      ((1 : Int) ≤ 0 → (0 : Int) ≤ 100 → m = 0)) ∧
    (∃ m, routeLimit (JSVal.str "500") = some m ∧ 1 ≤ m ∧ m ≤ 100 ∧
      ((500 : Int) = 0 → m = 1) ∧ ((100 : Int) < 500 → m = 100) ∧
      ((1 : Int) ≤ 500 → (500 : Int) ≤ 100 → m = 500)) :=
  ⟨c9_limit_clamped (JSVal.str "0") 0 (by decide),
   c9_limit_clamped (JSVal.str "500") 500 (by decide)⟩

/-! ### Query routing -/

lemma jsWhitespace_toUpper_self {c : Char} (h : jsWhitespace c = true) : c.toUpper = c := by
  have h6 : c = ' ' ∨ c = '\t' ∨ c = '\n' ∨ c = '\x0d' ∨ c = '\x0b' ∨ c = '\x0c' := by
    simpa [jsWhitespace, or_assoc] using h
  rcases h6 with h | h | h | h | h | h <;> subst h <;> decide

lemma writeKeywords_head_not_ws : ∀ w ∈ writeKeywords, jsWhitespace (w.headD 'A') = false := by
  decide

lemma writeKeywords_ne_nil : ([] : List Char) ∉ writeKeywords := by decide

lemma isPrefixCI_of_decomp (kw rest : List Char) :
    isPrefixCI (kw.map Char.toUpper) (kw ++ rest) = true := by
  unfold isPrefixCI
  rw [List.length_map, List.take_left, decide_eq_true_eq]

/-- C10.  The query router classifies a SQL text as a write exactly when
it begins, after optional leading whitespace and case-insensitively, with
INSERT, UPDATE, DELETE, CREATE, DROP, ALTER or TRUNCATE; writes and
caller-forced-primary calls execute on the primary pool, and every other
query executes on the read-replica pool when one is configured, else on
the primary pool. -/
theorem c10_query_router (sql : String) (replicaConfigured forcePrimary : Bool) :
    (isWriteQuery sql = true ↔ beginsWithWriteKeyword sql) ∧
    (isWriteQuery sql = true ∨ forcePrimary = true →
      queryTargetPool replicaConfigured sql forcePrimary = .primary) ∧
    (isWriteQuery sql = false → forcePrimary = false →
      queryTargetPool replicaConfigured sql forcePrimary
        = if replicaConfigured then .replica else .primary) := by
  refine ⟨⟨?_, ?_⟩, ?_, ?_⟩
  · intro h
    rw [isWriteQuery, List.any_eq_true] at h
    obtain ⟨w, hw, hpre⟩ := h
    rw [isPrefixCI, decide_eq_true_eq] at hpre
    set t := sql.data.dropWhile jsWhitespace with ht
    refine ⟨sql.data.takeWhile jsWhitespace, t.take w.length, t.drop w.length, ?_, ?_, ?_⟩
    · rw [List.append_assoc, List.take_append_drop, ht, List.takeWhile_append_dropWhile]
    · intro c hc; exact List.mem_takeWhile_imp hc
    · rw [hpre]; exact hw
  · rintro ⟨ws, kw, rest, hsql, hws, hkw⟩
    cases kw with
    | nil => exact absurd hkw (by simpa using writeKeywords_ne_nil)
    | cons k ks =>
      have hku : jsWhitespace (k.toUpper) = false := by
        have := writeKeywords_head_not_ws (k.toUpper :: ks.map Char.toUpper)
          (by simpa using hkw)
        simpa using this
      have hk : jsWhitespace k = false := by
        cases hkws : jsWhitespace k with
        | false => rfl
        | true => rw [jsWhitespace_toUpper_self hkws] at hku; rw [hkws] at hku; cases hku
      rw [isWriteQuery, List.any_eq_true]
      refine ⟨(k :: ks).map Char.toUpper, hkw, ?_⟩
      have hdrop : sql.data.dropWhile jsWhitespace = (k :: ks) ++ rest := by
        rw [hsql, List.append_assoc, List.dropWhile_append_of_pos hws,
          List.cons_append, List.dropWhile_cons_of_neg (by simp [hk])]
      rw [hdrop]
      exact isPrefixCI_of_decomp (k :: ks) rest
  · intro h
    rcases h with h | h
    · simp [queryTargetPool, h]
    · simp [queryTargetPool, h]
  · intro h1 h2
    simp [queryTargetPool, h1, h2, readPoolId]

/-- Witness for C10: a concrete lower-case insert after whitespace routes
to the primary pool and satisfies the prefix characterization; a select
with a configured replica and no force-primary routes to the replica. -/
theorem c10_witness :
    queryTargetPool true "  insert into products" false = PoolId.primary ∧
    beginsWithWriteKeyword "  insert into products" ∧
    queryTargetPool true "SELECT 1" false = PoolId.replica := by
  refine ⟨(c10_query_router "  insert into products" true false).2.1 (Or.inl (by decide)),
    (c10_query_router "  insert into products" true false).1.mp (by decide), ?_⟩
  have h := (c10_query_router "SELECT 1" true false).2.2 (by decide) rfl
  simpa using h

/-! ### Cursor validation and the route-to-controller argument binding -/

/-- C3 (amended).  A provided cursor whose `parseInt` value is `NaN` or
below 1 makes the operation fail with the `INVALID_CURSOR` client error
before any database query or cache access: no effect is executed and the
cache state is untouched.  (Cursors with a parsable integer prefix of at
least 1, such as "12abc", are accepted with the parsed prefix.) -/
theorem c3_invalid_cursor_rejected_before_store (encode : PageResult → String)
    (decode : String → Option PageResult) (db : List Product) (st : CacheState)
    (catV curV limV reqV : JSVal)
    (hprov : isProvided curV = true)
    (hbad : parseIntJS curV = none ∨ ∃ n, parseIntJS curV = some n ∧ n < 1) :
    getAllProductsPaginated encode decode db st catV curV limV reqV
      = (.error .invalidCursor, st, []) := by
  rcases hbad with h | ⟨n, h, hn⟩
  · simp [getAllProductsPaginated, hprov, h]
  · simp [getAllProductsPaginated, hprov, h, hn]

/-- Witness for C3 (amended): cursor "abc" parses to `NaN` and cursor "0"
parses below 1; both are rejected with `INVALID_CURSOR` and an empty
effect trace. -/
theorem c3_witness :
    getAllProductsPaginated (fun _ => "") (fun _ => none) [⟨1, 1⟩]
        ⟨false, false, [], false, false, false, false⟩
        JSVal.null (JSVal.str "abc") (JSVal.num 10) JSVal.undef
      = (.error .invalidCursor, ⟨false, false, [], false, false, false, false⟩, []) ∧
    getAllProductsPaginated (fun _ => "") (fun _ => none) [⟨1, 1⟩]
        ⟨false, false, [], false, false, false, false⟩
        JSVal.null (JSVal.str "0") (JSVal.num 10) JSVal.undef
      = (.error .invalidCursor, ⟨false, false, [], false, false, false, false⟩, []) :=
  ⟨c3_invalid_cursor_rejected_before_store _ _ _ _ _ _ _ _ (by decide) (Or.inl (by decide)),
   c3_invalid_cursor_rejected_before_store _ _ _ _ _ _ _ _ (by decide)
     (Or.inr ⟨0, by decide, by decide⟩)⟩

/-- C3 counterexample.  The cursor "12abc" is provided and does not denote
a positive integer, yet the operation does not fail with `INVALID_CURSOR`:
`parseInt` truncates it to 12, which passes validation, and the store is
queried (the effect trace is nonempty). -/
theorem c3_counterexample :
    denotesPosInt (JSVal.str "12abc") = false ∧
    isProvided (JSVal.str "12abc") = true ∧
    (getAllProductsPaginated (fun _ => "") (fun _ => none) [⟨1, 1⟩]
        ⟨false, false, [], false, false, false, false⟩
        JSVal.null (JSVal.str "12abc") (JSVal.num 10) JSVal.undef).1
      = .ok ⟨[⟨1, 1⟩], none, false⟩ ∧
    (getAllProductsPaginated (fun _ => "") (fun _ => none) [⟨1, 1⟩]
        ⟨false, false, [], false, false, false, false⟩
        JSVal.null (JSVal.str "12abc") (JSVal.num 10) JSVal.undef).2.2
      = [Effect.dbQuery none (some 12) (JSVal.num 11)] := by
  refine ⟨by decide, by decide, rfl, rfl⟩

lemma routeLimit_bounds {qlimit : JSVal} {l : Int} (h : routeLimit qlimit = some l) :
    1 ≤ l ∧ l ≤ 100 := by
  rw [routeLimit] at h
  cases hp : parseIntJS (jsOr qlimit (.str "10")) with
  | none => rw [hp] at h; cases h
  | some n =>
    rw [hp] at h
    have h' : some (min (max n 1) 100) = some l := h
    cases h'
    constructor <;> omega

lemma getAllProductsPaginated_num_cursor (encode : PageResult → String)
    (decode : String → Option PageResult) (db : List Product) (st : CacheState)
    (catV limV reqV : JSVal) (n : Int) (hn : 1 ≤ n) :
    getAllProductsPaginated encode decode db st catV (JSVal.num n) limV reqV
      = getAllProductsPaginatedRun encode decode db st catV (JSVal.num n)
          (if limV = JSVal.undef then JSVal.num 20 else limV) := by
  have hnlt : ¬ n < 1 := by omega
  simp [getAllProductsPaginated, isProvided, parseIntJS, hnlt]

lemma getAllProductsPaginated_absent_cursor (encode : PageResult → String)
    (decode : String → Option PageResult) (db : List Product) (st : CacheState)
    (catV curV limV reqV : JSVal) (hcur : isProvided curV = false) :
    getAllProductsPaginated encode decode db st catV curV limV reqV
      = getAllProductsPaginatedRun encode decode db st catV curV
          (if limV = JSVal.undef then JSVal.num 20 else limV) := by
  simp [getAllProductsPaginated, hcur]

/-- C2.  The `GET /api/products` route passes `(cursor, limit, req)` into
the four-parameter controller, so the raw cursor string is bound to
`categoryId`, the clamped limit to `cursor`, and the request object to
`limit`: a request with `cursor=C` and `limit=L` issues a
category-`C`-filtered query whose keyset bound is the clamped `L` (and
whose SQL LIMIT parameter is the string "[object Object]1"), not the
intended unfiltered query bounded by `C`. -/
theorem c2_route_arg_mismatch (encode : PageResult → String)
    (decode : String → Option PageResult) (db : List Product) (st : CacheState)
    (cstr : String) (qlimit : JSVal) (c l : Int)
    (hdis : (st.enabled && st.hasClient) = false)
    (hc : parseIntStr cstr = some c) (hc1 : 1 ≤ c) (hne : cstr ≠ "")
    (hl : routeLimit qlimit = some l) :
    routeGetProducts encode decode db st (JSVal.str cstr) qlimit
      = (.error .dbError, st,
         [Effect.dbQuery (some c) (some l) (JSVal.str "[object Object]1")]) ∧
    ∀ limP : JSVal,
      (routeGetProducts encode decode db st (JSVal.str cstr) qlimit).2.2
        ≠ [Effect.dbQuery none (some c) limP] := by
  obtain ⟨hl1, _⟩ := routeLimit_bounds hl
  have hmain : routeGetProducts encode decode db st (JSVal.str cstr) qlimit
      = (.error .dbError, st,
         [Effect.dbQuery (some c) (some l) (JSVal.str "[object Object]1")]) := by
    rw [routeGetProducts, hl]
    rw [getAllProductsPaginated_num_cursor encode decode db st _ _ _ l hl1]
    have hobj : (if JSVal.obj = JSVal.undef then JSVal.num 20 else JSVal.obj)
        = JSVal.obj := by simp
    rw [hobj, getAllProductsPaginatedRun,
      getCached_bypass pageIsNull encode decode st _ _ 300 hdis]
    have htr : truthy (JSVal.str cstr) = true := by simp [truthy, hne]
    have hcnum : ¬ c < 1 := by omega
    have hlt : truthy (JSVal.num l) = true := by
      simp only [truthy, decide_eq_true_eq]; omega
    simp [productsCompute, htr, parseIntJS, hc, hcnum, runProductsQuery, jsAdd1,
      cursorParam, hlt]
  refine ⟨hmain, ?_⟩
  intro limP hcontr
  rw [hmain] at hcontr
  simp at hcontr

/-- Witness for C2: a concrete request with `cursor=3` and `limit=10`
against an empty table is processed as a category-3 query with keyset
bound 10 and a garbage LIMIT parameter, failing as a database error. -/
theorem c2_witness :
    routeGetProducts (fun _ => "") (fun _ => none) []
        ⟨false, false, [], false, false, false, false⟩ (JSVal.str "3") (JSVal.str "10")
      = (.error .dbError, ⟨false, false, [], false, false, false, false⟩,
         [Effect.dbQuery (some 3) (some 10) (JSVal.str "[object Object]1")]) :=
  (c2_route_arg_mismatch (fun _ => "") (fun _ => none) []
    ⟨false, false, [], false, false, false, false⟩ "3" (JSVal.str "10") 3 10
    rfl (by decide) (by decide) (by decide) (by decide)).1

/-! ### Pages at the end of the keyset traversal -/

/-- C5 counterexample.  A cursor larger than every stored id (the spec's
"beyond the dataset" example, cursor 999999999) does not return an empty
page: the descending keyset filter `id < cursor` matches every row, so
the first page of the whole table is returned. -/
theorem c5_counterexample :
    ([⟨5, 1⟩] : List Product).all (fun p => decide (p.id < 999999999)) = true ∧
    (getAllProductsPaginated (fun _ => "") (fun _ => none) [⟨5, 1⟩]
        ⟨false, false, [], false, false, false, false⟩
        JSVal.null (JSVal.num 999999999) (JSVal.num 10) JSVal.undef).1
      = .ok ⟨[⟨5, 1⟩], none, false⟩ ∧
    (⟨[⟨5, 1⟩], none, false⟩ : PageResult) ≠ ⟨[], none, false⟩ := by
  refine ⟨by decide, rfl, by decide⟩

/-- C5 (amended).  A valid cursor at or beyond the end of the descending
traversal — one that is at most every stored id, so that no row satisfies
`id < cursor` — returns an empty-but-valid page (`items` empty,
`hasMore` false, `nextCursor` null) and does not fail.  (A cursor larger
than every stored id instead behaves like no cursor at all and returns
the first page.) -/
theorem c5_cursor_at_end_empty_page (encode : PageResult → String)
    (decode : String → Option PageResult) (db : List Product) (st : CacheState)
    (c limit : Int)
    (hdis : (st.enabled && st.hasClient) = false)
    (hc : 1 ≤ c) (hlim : 1 ≤ limit)
    (hend : ∀ p ∈ db, c ≤ p.id) :
    (getAllProductsPaginated encode decode db st JSVal.null (JSVal.num c)
        (JSVal.num limit) JSVal.undef).1
      = .ok ⟨[], none, false⟩ := by
  rw [getAllProductsPaginated_num_cursor encode decode db st _ _ _ c hc]
  have hlv : (if JSVal.num limit = JSVal.undef then JSVal.num 20 else JSVal.num limit)
      = JSVal.num limit := by simp
  rw [hlv, getAllProductsPaginatedRun,
    getCached_bypass pageIsNull encode decode st _ _ 300 hdis]
  have htr : truthy JSVal.null = false := rfl
  have hct : truthy (JSVal.num c) = true := by
    simp only [truthy, decide_eq_true_eq]; omega
  have hrows : db.filter (rowPred none (some c)) = [] := by
    rw [List.filter_eq_nil_iff]
    intro p hp
    simp only [rowPred, Bool.true_and, decide_eq_true_eq, not_lt]
    have := hend p hp
    omega
  have hm : ¬ limit + 1 < 0 := by omega
  have hpage : pageFromRows ([] : List Product) limit = ⟨[], none, false⟩ := by
    apply pageFromRows_small
    simpa using by omega
  simp [productsCompute, htr, runProductsQuery, jsAdd1, cursorParam, hct, hm,
    queryRows, hrows, hpage]

/-- Witness for C5 (amended): cursor 1 against a table whose smallest id
is 5 yields the empty page without error. -/
theorem c5_witness :
    (getAllProductsPaginated (fun _ => "") (fun _ => none) [⟨10, 1⟩, ⟨5, 1⟩]
        ⟨false, false, [], false, false, false, false⟩
        JSVal.null (JSVal.num 1) (JSVal.num 10) JSVal.undef).1
      = .ok ⟨[], none, false⟩ :=
  c5_cursor_at_end_empty_page (fun _ => "") (fun _ => none) [⟨10, 1⟩, ⟨5, 1⟩]
    ⟨false, false, [], false, false, false, false⟩ 1 10 rfl (by decide) (by decide)
    (by decide)

/-! ### Cache invalidation on product writes -/

lemma nil_mem_suffixes : ∀ s : List Char, [] ∈ suffixes s
  | [] => by simp [suffixes]
  | _ :: cs => by simp [suffixes, nil_mem_suffixes cs]

lemma globMatch_trailing_star (p : List Char) (hp : ∀ c ∈ p, c ≠ '*') :
    ∀ s : List Char, globMatch (p ++ ['*']) (p ++ s) = true := by
  induction p with
  | nil =>
    intro s
    have hstep : globMatch ['*'] s = (suffixes s).any (fun t => globMatch [] t) := rfl
    rw [List.nil_append, List.nil_append, hstep, List.any_eq_true]
    exact ⟨[], nil_mem_suffixes s, rfl⟩
  | cons c p ih =>
    intro s
    have hc : c ≠ '*' := hp c (by simp)
    rw [List.cons_append, List.cons_append]
    simp only [globMatch, if_neg hc]
    have := ih (fun d hd => hp d (by simp [hd])) s
    simp [this]

lemma lookupStore_filter_none (store : List (String × String × Nat)) (key : String)
    (p : String × String × Nat → Bool) (h : ∀ e, e.1 = key → p e = false) :
    lookupStore (store.filter p) key = none := by
  rw [lookupStore, Option.map_eq_none', List.find?_eq_none]
  intro e he
  rw [List.mem_filter] at he
  intro hbeq
  rw [beq_iff_eq] at hbeq
  rw [h e hbeq] at he
  exact Bool.noConfusion he.2

lemma lookupStore_none_filter (store : List (String × String × Nat)) (key : String)
    (p : String × String × Nat → Bool) (h : lookupStore store key = none) :
    lookupStore (store.filter p) key = none := by
  rw [lookupStore, Option.map_eq_none', List.find?_eq_none]
  rw [lookupStore, Option.map_eq_none', List.find?_eq_none] at h
  intro e he
  exact h e (List.mem_filter.mp he).1

lemma invalidateCache_flags (keys : List String) (st : CacheState) :
    (invalidateCache keys st).enabled = st.enabled ∧
    (invalidateCache keys st).hasClient = st.hasClient ∧
    (invalidateCache keys st).getFails = st.getFails ∧
    (invalidateCache keys st).setFails = st.setFails := by
  unfold invalidateCache
  repeat' split
  all_goals exact ⟨rfl, rfl, rfl, rfl⟩

lemma invalidateCachePattern_flags (pattern : String) (st : CacheState) :
    (invalidateCachePattern pattern st).enabled = st.enabled ∧
    (invalidateCachePattern pattern st).hasClient = st.hasClient ∧
    (invalidateCachePattern pattern st).getFails = st.getFails ∧
    (invalidateCachePattern pattern st).setFails = st.setFails := by
  unfold invalidateCachePattern
  repeat' split
  all_goals exact ⟨rfl, rfl, rfl, rfl⟩

lemma invalidateCache_lookup_mono (keys : List String) (st : CacheState) (key : String)
    (h : lookupStore st.store key = none) :
    lookupStore (invalidateCache keys st).store key = none := by
  unfold invalidateCache
  repeat' split
  all_goals first
    | exact h
    | exact lookupStore_none_filter _ _ _ h

lemma invalidateCachePattern_lookup_mono (pattern : String) (st : CacheState) (key : String)
    (h : lookupStore st.store key = none) :
    lookupStore (invalidateCachePattern pattern st).store key = none := by
  unfold invalidateCachePattern
  repeat' split
  all_goals first
    | exact h
    | exact lookupStore_none_filter _ _ _ h

lemma invalidateCache_lookup_listed (keys : List String) (st : CacheState) (key : String)
    (hen : st.enabled = true) (hcl : st.hasClient = true) (hdel : st.delFails = false)
    (hmem : keys.contains key = true) :
    lookupStore (invalidateCache keys st).store key = none := by
  have hne : keys.isEmpty = false := by
    cases keys with
    | nil => cases hmem
    | cons a as => rfl
  simp only [invalidateCache, hen, hcl, hdel, hne, Bool.and_self, if_true,
    Bool.false_eq_true, if_false]
  apply lookupStore_filter_none
  intro e he
  rw [he, hmem]
  rfl

lemma invalidateCachePattern_lookup_matching (pattern : String) (st : CacheState)
    (key : String) (hen : st.enabled = true) (hcl : st.hasClient = true)
    (hdel : st.delFails = false) (hkeys : st.keysFails = false)
    (hmatch : globMatch pattern.data key.data = true) :
    lookupStore (invalidateCachePattern pattern st).store key = none := by
  simp only [invalidateCachePattern, hen, hcl, hdel, hkeys, Bool.and_self, if_true,
    Bool.or_self, Bool.false_eq_true, if_false]
  apply lookupStore_filter_none
  intro e he
  rw [he, hmatch]
  rfl

lemma products_glob_matches_prefixed {key : String}
    (hpre : strStartsWith "products:" key = true) :
    globMatch ("products:*").data key.data = true := by
  rw [strStartsWith, decide_eq_true_eq] at hpre
  have hdecomp : key.data = "products:".data ++ key.data.drop ("products:".data).length := by
    conv_lhs => rw [← List.take_append_drop ("products:".data).length key.data]
    rw [hpre]
  have hstar : ("products:*").data = "products:".data ++ ['*'] := by decide
  rw [hstar, hdecomp]
  exact globMatch_trailing_star "products:".data (by decide) _

/-- C8.  After a product list page is cached under a `products:`-prefixed
key, each of the three product writes (create, update, delete) clears
every `products:*` cache key (and update/delete also clear the exact
`product:{id}` key), so the next `getCached` call under the same list key
is a miss that invokes its compute function and returns the fresh
result. -/
theorem c8_invalidation_clears_product_lists {V : Type} (isNullV : V → Bool)
    (encode : V → String) (decode : String → Option V) (st : CacheState)
    (key : String) (compute : Except AppErr V × List Effect) (ttl : Nat)
    (pid catId : Int) (d : V)
    (hen : st.enabled = true) (hcl : st.hasClient = true)
    (hdel : st.delFails = false) (hkeys : st.keysFails = false)
    (hget : st.getFails = false) (hset : st.setFails = false)
    (hpre : strStartsWith "products:" key = true)
    (hok : compute.1 = .ok d) :
    lookupStore (createProductInvalidation catId st).store key = none ∧
    lookupStore (updateProductInvalidation pid catId st).store key = none ∧
    lookupStore (deleteProductInvalidation pid catId st).store key = none ∧
    lookupStore (updateProductInvalidation pid catId st).store
      ("product:" ++ toString pid) = none ∧
    lookupStore (deleteProductInvalidation pid catId st).store
      ("product:" ++ toString pid) = none ∧
    (getCached isNullV encode decode (createProductInvalidation catId st) key
      compute ttl).1 = .ok d ∧
    (getCached isNullV encode decode (createProductInvalidation catId st) key
      compute ttl).2.2.1 = 1 ∧
    (getCached isNullV encode decode (updateProductInvalidation pid catId st) key
      compute ttl).1 = .ok d ∧
    (getCached isNullV encode decode (updateProductInvalidation pid catId st) key
      compute ttl).2.2.1 = 1 ∧
    (getCached isNullV encode decode (deleteProductInvalidation pid catId st) key
      compute ttl).1 = .ok d ∧
    (getCached isNullV encode decode (deleteProductInvalidation pid catId st) key
      compute ttl).2.2.1 = 1 := by
  have hglob := products_glob_matches_prefixed hpre
  -- flags after the first invalidation of the update/delete sequences
  have hfl1 := invalidateCache_flags ["product:" ++ toString pid] st
  have hen1 : (invalidateCache ["product:" ++ toString pid] st).enabled = true := by
    rw [hfl1.1, hen]
  have hcl1 : (invalidateCache ["product:" ++ toString pid] st).hasClient = true := by
    rw [hfl1.2.1, hcl]
  have hdel1 : (invalidateCache ["product:" ++ toString pid] st).delFails = false := by
    unfold invalidateCache
    repeat' split
    all_goals exact hdel
  have hkeys1 : (invalidateCache ["product:" ++ toString pid] st).keysFails = false := by
    unfold invalidateCache
    repeat' split
    all_goals exact hkeys
  -- the list key is erased by the pattern sweep in all three writes
  have hlk_create : lookupStore (createProductInvalidation catId st).store key = none := by
    rw [createProductInvalidation]
    exact invalidateCache_lookup_mono _ _ _
      (invalidateCachePattern_lookup_matching _ _ _ hen hcl hdel hkeys hglob)
  have hlk_update : lookupStore (updateProductInvalidation pid catId st).store key
      = none := by
    rw [updateProductInvalidation]
    exact invalidateCache_lookup_mono _ _ _
      (invalidateCachePattern_lookup_matching _ _ _ hen1 hcl1 hdel1 hkeys1 hglob)
  have hlk_delete : lookupStore (deleteProductInvalidation pid catId st).store key
      = none := by
    rw [deleteProductInvalidation]
    exact invalidateCache_lookup_mono _ _ _
      (invalidateCachePattern_lookup_matching _ _ _ hen1 hcl1 hdel1 hkeys1 hglob)
  -- the exact product key is erased by the first step of update/delete
  have hpid : lookupStore (invalidateCache ["product:" ++ toString pid] st).store
      ("product:" ++ toString pid) = none :=
    invalidateCache_lookup_listed _ _ _ hen hcl hdel (by simp)
  have hlk_pid_update : lookupStore (updateProductInvalidation pid catId st).store
      ("product:" ++ toString pid) = none := by
    rw [updateProductInvalidation]
    exact invalidateCache_lookup_mono _ _ _
      (invalidateCachePattern_lookup_mono _ _ _ hpid)
  have hlk_pid_delete : lookupStore (deleteProductInvalidation pid catId st).store
      ("product:" ++ toString pid) = none := by
    rw [deleteProductInvalidation]
    exact invalidateCache_lookup_mono _ _ _
      (invalidateCachePattern_lookup_mono _ _ _ hpid)
  -- a getCached against the post-invalidation state misses and recomputes
  have hmissrun : ∀ st' : CacheState, st'.enabled = true → st'.hasClient = true →
      st'.getFails = false → st'.setFails = false →
      lookupStore st'.store key = none →
      (getCached isNullV encode decode st' key compute ttl).1 = .ok d ∧
      (getCached isNullV encode decode st' key compute ttl).2.2.1 = 1 := by
    intro st' h1 h2 h3 h4 h5
    have hrun : getCached isNullV encode decode st' key compute ttl
        = getCachedMiss isNullV encode st' key compute ttl := by
      simp [getCached, h1, h2, h3, h5]
    rw [hrun]
    unfold getCachedMiss
    rw [hok]
    cases hnull : isNullV d <;> simp [hnull, h4]
  have hflagsOf : ∀ (ks : List String) (pat : String) (st0 : CacheState),
      (invalidateCache ks (invalidateCachePattern pat st0)).enabled = st0.enabled ∧
      (invalidateCache ks (invalidateCachePattern pat st0)).hasClient = st0.hasClient ∧
      (invalidateCache ks (invalidateCachePattern pat st0)).getFails = st0.getFails ∧
      (invalidateCache ks (invalidateCachePattern pat st0)).setFails = st0.setFails := by
    intro ks pat st0
    have ha := invalidateCache_flags ks (invalidateCachePattern pat st0)
    have hb := invalidateCachePattern_flags pat st0
    exact ⟨ha.1.trans hb.1, ha.2.1.trans hb.2.1, ha.2.2.1.trans hb.2.2.1,
      ha.2.2.2.trans hb.2.2.2⟩
  have hcf := hflagsOf ["category:" ++ toString catId] "products:*" st
  have huf0 := hflagsOf ["category:" ++ toString catId] "products:*"
    (invalidateCache ["product:" ++ toString pid] st)
  obtain ⟨hcr1, hcr2⟩ := hmissrun (createProductInvalidation catId st)
    (by rw [createProductInvalidation] at *; rw [hcf.1, hen])
    (by rw [createProductInvalidation] at *; rw [hcf.2.1, hcl])
    (by rw [createProductInvalidation] at *; rw [hcf.2.2.1, hget])
    (by rw [createProductInvalidation] at *; rw [hcf.2.2.2, hset])
    hlk_create
  obtain ⟨hup1, hup2⟩ := hmissrun (updateProductInvalidation pid catId st)
    (by rw [updateProductInvalidation] at *; rw [huf0.1, hfl1.1, hen])
    (by rw [updateProductInvalidation] at *; rw [huf0.2.1, hfl1.2.1, hcl])
    (by rw [updateProductInvalidation] at *; rw [huf0.2.2.1, hfl1.2.2.1, hget])
    (by rw [updateProductInvalidation] at *; rw [huf0.2.2.2, hfl1.2.2.2, hset])
    hlk_update
  obtain ⟨hde1, hde2⟩ := hmissrun (deleteProductInvalidation pid catId st)
    (by rw [deleteProductInvalidation] at *; rw [huf0.1, hfl1.1, hen])
    (by rw [deleteProductInvalidation] at *; rw [huf0.2.1, hfl1.2.1, hcl])
    (by rw [deleteProductInvalidation] at *; rw [huf0.2.2.1, hfl1.2.2.1, hget])
    (by rw [deleteProductInvalidation] at *; rw [huf0.2.2.2, hfl1.2.2.2, hset])
    hlk_delete
  exact ⟨hlk_create, hlk_update, hlk_delete, hlk_pid_update, hlk_pid_delete,
    hcr1, hcr2, hup1, hup2, hde1, hde2⟩

/-- Witness for C8: a concrete populated cache, an update of product 5 in
category 2, and a subsequent `getCached` under the cached list key that
misses and recomputes. -/
theorem c8_witness :
    lookupStore (updateProductInvalidation 5 2
      ⟨true, true, [("products:paginated:all:start:20", "stale", 300),
        ("product:5", "stale", 900), ("other", "y", 1)],
        false, false, false, false⟩).store "products:paginated:all:start:20" = none ∧
    (getCached (fun (_ : Nat) => false) (fun n => toString n) (fun _ => none)
      (updateProductInvalidation 5 2
        ⟨true, true, [("products:paginated:all:start:20", "stale", 300),
          ("product:5", "stale", 900), ("other", "y", 1)],
          false, false, false, false⟩)
      "products:paginated:all:start:20" (Except.ok 42, []) 300).1 = Except.ok 42 ∧
    (getCached (fun (_ : Nat) => false) (fun n => toString n) (fun _ => none)
      (updateProductInvalidation 5 2
        ⟨true, true, [("products:paginated:all:start:20", "stale", 300),
          ("product:5", "stale", 900), ("other", "y", 1)],
          false, false, false, false⟩)
      "products:paginated:all:start:20" (Except.ok 42, []) 300).2.2.1 = 1 := by
  have h := c8_invalidation_clears_product_lists (fun (_ : Nat) => false)
    (fun n => toString n) (fun _ => none)
    ⟨true, true, [("products:paginated:all:start:20", "stale", 300),
      ("product:5", "stale", 900), ("other", "y", 1)], false, false, false, false⟩
    "products:paginated:all:start:20" (Except.ok 42, []) 300 5 2 42
    rfl rfl rfl rfl rfl rfl (by decide) rfl
  exact ⟨h.2.1, h.2.2.2.2.2.2.2.1, h.2.2.2.2.2.2.2.2.1⟩

/-! ### Pagination completeness -/

lemma remainingRows_none (db : List Product) : remainingRows db none = db := by
  rw [remainingRows, List.filter_eq_self]
  intro a _
  rfl

lemma rowPred_none_some (c : Int) (p : Product) :
    rowPred none (some c) p = decide (p.id < c) := by
  simp [rowPred]

lemma filter_lt_getElem_eq_drop :
    ∀ (i : Nat) (R : List Product), R.Pairwise (fun a b => b.id < a.id) →
      ∀ (hi : i < R.length),
      R.filter (fun p => decide (p.id < (R.get ⟨i, hi⟩).id)) = R.drop (i + 1) := by
  intro i
  induction i with
  | zero =>
    intro R hR hi
    cases R with
    | nil => simp at hi
    | cons r rest =>
      obtain ⟨hhead, _⟩ := List.pairwise_cons.mp hR
      show (r :: rest).filter (fun p => decide (p.id < r.id)) = rest
      rw [List.filter_cons]
      have hr : decide (r.id < r.id) = false := by simp
      rw [hr, if_neg (by simp)]
      rw [List.filter_eq_self]
      intro p hp
      simp [hhead p hp]
  | succ i ih =>
    intro R hR hi
    cases R with
    | nil => simp at hi
    | cons r rest =>
      have hi' : i < rest.length := by simpa using hi
      obtain ⟨hhead, hrest⟩ := List.pairwise_cons.mp hR
      have hx : (r :: rest).get ⟨i + 1, hi⟩ = rest.get ⟨i, hi'⟩ := rfl
      rw [hx]
      have hxmem : rest.get ⟨i, hi'⟩ ∈ rest := List.get_mem rest i hi'
      have hrx : decide (r.id < (rest.get ⟨i, hi'⟩).id) = false := by
        have h1 := hhead _ hxmem
        simp only [decide_eq_false_iff_not, not_lt]
        omega
      rw [List.filter_cons, hrx, if_neg (by simp), List.drop_succ_cons]
      exact ih rest hrest hi'

lemma getAllProducts_disabled_core (encode : PageResult → String)
    (decode : String → Option PageResult) (db : List Product) (st : CacheState)
    (curV : JSVal) (curF : Option Int) (limit : Int)
    (hdis : (st.enabled && st.hasClient) = false)
    (hcur : CurOK curV curF) (hlim : 1 ≤ limit) :
    (getAllProductsPaginated encode decode db st JSVal.null curV (JSVal.num limit)
        JSVal.undef).1
      = .ok (pageFromRows ((remainingRows db curF).take (limit + 1).toNat) limit) := by
  have hm : ¬ limit + 1 < 0 := by omega
  have hlv : (if JSVal.num limit = JSVal.undef then JSVal.num 20 else JSVal.num limit)
      = JSVal.num limit := by simp
  cases hcur with
  | undefC =>
    rw [getAllProductsPaginated_absent_cursor encode decode db st JSVal.null JSVal.undef
        (JSVal.num limit) JSVal.undef rfl, hlv,
      getAllProductsPaginatedRun, getCached_bypass pageIsNull encode decode st _ _ 300 hdis]
    simp [productsCompute, truthy, runProductsQuery, jsAdd1, cursorParam, hm, queryRows,
      remainingRows]
  | nullC =>
    rw [getAllProductsPaginated_absent_cursor encode decode db st JSVal.null JSVal.null
        (JSVal.num limit) JSVal.undef rfl, hlv,
      getAllProductsPaginatedRun, getCached_bypass pageIsNull encode decode st _ _ 300 hdis]
    simp [productsCompute, truthy, runProductsQuery, jsAdd1, cursorParam, hm, queryRows,
      remainingRows]
  | numC n hn =>
    rw [getAllProductsPaginated_num_cursor encode decode db st _ _ _ n hn, hlv,
      getAllProductsPaginatedRun, getCached_bypass pageIsNull encode decode st _ _ 300 hdis]
    have hct : truthy (JSVal.num n) = true := by
      simp only [truthy, decide_eq_true_eq]
      omega
    have hne : ¬ n = 0 := by omega
    simp [productsCompute, truthy, runProductsQuery, jsAdd1, cursorParam, hct, hm,
      hne, queryRows, remainingRows]

lemma collectAll_loop (encode : PageResult → String)
    (decode : String → Option PageResult) (db : List Product) (st : CacheState)
    (limit : Int)
    (hdis : (st.enabled && st.hasClient) = false)
    (hsorted : sortedDescIds db) (hids : ∀ p ∈ db, 1 ≤ p.id) (hlim : 1 ≤ limit) :
    ∀ (fuel : Nat) (curV : JSVal) (curF : Option Int), CurOK curV curF →
      (remainingRows db curF).length ≤ fuel →
      collectAll encode decode db st limit fuel curV = remainingRows db curF := by
  intro fuel
  induction fuel with
  | zero =>
    intro curV curF _ hlen
    have hnil : remainingRows db curF = [] := List.eq_nil_of_length_eq_zero (by omega)
    rw [hnil]
    rfl
  | succ f ih =>
    intro curV curF hcur hlen
    have hstep := getAllProducts_disabled_core encode decode db st curV curF limit
      hdis hcur hlim
    set R := remainingRows db curF with hRdef
    set lt := limit.toNat with hltdef
    have hlt1 : 1 ≤ lt := by omega
    have hto : (limit + 1).toNat = lt + 1 := by omega
    rw [hto] at hstep
    by_cases hsmall : R.length ≤ lt
    · have htake : R.take (lt + 1) = R := List.take_of_length_le (by omega)
      rw [htake, pageFromRows_small R limit (by omega)] at hstep
      rw [collectAll, hstep]
      simp
    · push_neg at hsmall
      have hlen1 : (R.take (lt + 1)).length = lt + 1 := by
        rw [List.length_take]
        omega
      rw [pageFromRows_big _ limit (by rw [hlen1]; push_cast; omega)] at hstep
      have hdropLast : (R.take (lt + 1)).dropLast = R.take lt := by
        rw [List.dropLast_eq_take, hlen1, Nat.add_sub_cancel, List.take_take]
        congr 1
        omega
      have hlast : lt - 1 < R.length := by omega
      have hgetLast : (R.take lt).getLast? = some (R.get ⟨lt - 1, hlast⟩) := by
        rw [List.getLast?_eq_getElem?, List.length_take]
        have hminlt : min lt R.length = lt := by omega
        rw [hminlt, List.getElem?_take, if_pos (by omega),
          List.getElem?_eq_getElem hlast]
        simp
      set x := R.get ⟨lt - 1, hlast⟩ with hxdef
      rw [hdropLast, hgetLast] at hstep
      have hxmemR : x ∈ R := List.get_mem R (lt - 1) hlast
      have hxdb : x ∈ db := by
        have : x ∈ db.filter (rowPred none curF) := by
          rw [← remainingRows, ← hRdef]
          exact hxmemR
        exact (List.mem_filter.mp this).1
      have hxid : 1 ≤ x.id := hids x hxdb
      have hRs : R.Pairwise (fun a b => b.id < a.id) := by
        rw [hRdef, remainingRows]
        exact List.Pairwise.filter _ hsorted
      have hfform : remainingRows db (some x.id) = R.filter (fun p => decide (p.id < x.id)) := by
        cases curF with
        | none =>
          rw [hRdef, remainingRows_none, remainingRows]
          apply List.filter_congr
          intro p _
          exact rowPred_none_some x.id p
        | some c =>
          have hxc : x.id < c := by
            have hmem : x ∈ db.filter (rowPred none (some c)) := by
              rw [← remainingRows, ← hRdef]
              exact hxmemR
            have := (List.mem_filter.mp hmem).2
            rw [rowPred_none_some] at this
            simpa using this
          rw [hRdef, remainingRows, remainingRows, List.filter_filter]
          apply List.filter_congr
          intro p _
          rw [rowPred_none_some, rowPred_none_some]
          by_cases h : p.id < x.id
          · have hc2 : p.id < c := by omega
            simp [h, hc2]
          · simp [h]
      have hdropform : R.filter (fun p => decide (p.id < x.id)) = R.drop ((lt - 1) + 1) :=
        filter_lt_getElem_eq_drop (lt - 1) R hRs hlast
      have hkey : remainingRows db (some x.id) = R.drop lt := by
        rw [hfform, hdropform]
        congr 1
        omega
      have hnextlen : (remainingRows db (some x.id)).length ≤ f := by
        rw [hkey, List.length_drop]
        omega
      have hrec := ih (JSVal.num x.id) (some x.id) (CurOK.numC x.id hxid) hnextlen
      rw [collectAll, hstep]
      show (if true = true then R.take lt ++ collectAll encode decode db st limit f
          (optCursorToJS ((some x).map Product.id)) else R.take lt) = R
      rw [if_pos rfl]
      show R.take lt ++ collectAll encode decode db st limit f (JSVal.num x.id) = R
      rw [hrec, hkey, List.take_append_drop]

/-- C1.  For a table of N products (strictly descending ids, as the
`ORDER BY id DESC` index order) and any limit of at least 1, repeatedly
calling `getAllProductsPaginated` with no category filter -- first with no
cursor, then feeding back each returned `nextCursor` -- until `hasMore`
is false yields exactly the N products, with no duplicates and no
omissions, in strictly descending id order.  (Stated over the database
read path: the cache store is unavailable, so every call computes from
the table.) -/
theorem c1_pagination_completeness (encode : PageResult → String)
    (decode : String → Option PageResult) (db : List Product) (st : CacheState)
    (limit : Int) (fuel : Nat)
    (hdis : (st.enabled && st.hasClient) = false)
    (hsorted : sortedDescIds db) (hids : ∀ p ∈ db, 1 ≤ p.id)
    (hlim : 1 ≤ limit) (hfuel : db.length ≤ fuel) :
    collectAll encode decode db st limit fuel JSVal.undef = db ∧
    (collectAll encode decode db st limit fuel JSVal.undef).Pairwise
      (fun a b => b.id < a.id) := by
  have h := collectAll_loop encode decode db st limit hdis hsorted hids hlim fuel
    JSVal.undef none CurOK.undefC (by rw [remainingRows_none]; exact hfuel)
  rw [h, remainingRows_none]
  exact ⟨rfl, hsorted⟩

/-- Witness for C1: a concrete three-product table paginated with limit 2
is recovered exactly, in order, within three calls. -/
theorem c1_witness :
    collectAll (fun _ => "") (fun _ => none) [⟨30, 1⟩, ⟨20, 1⟩, ⟨10, 2⟩]
        ⟨false, false, [], false, false, false, false⟩ 2 3 JSVal.undef
      = [⟨30, 1⟩, ⟨20, 1⟩, ⟨10, 2⟩] ∧
    (collectAll (fun _ => "") (fun _ => none) [⟨30, 1⟩, ⟨20, 1⟩, ⟨10, 2⟩]
        ⟨false, false, [], false, false, false, false⟩ 2 3 JSVal.undef).Pairwise
      (fun a b => b.id < a.id) :=
  c1_pagination_completeness (fun _ => "") (fun _ => none)
    [⟨30, 1⟩, ⟨20, 1⟩, ⟨10, 2⟩] ⟨false, false, [], false, false, false, false⟩ 2 3
    rfl (by unfold sortedDescIds; decide) (by decide) (by decide) (by decide)


end ECom
